import Mathlib

/-!
Verification of the AppManager service supervisor (Rust sources:
`src/service.rs`, `src/manager.rs`, `src/main.rs`, `src/api.rs`).

The Rust code is shallowly embedded as executable Lean definitions:

* the OS process-table snapshot (`sysinfo::System`) is a list of `Proc`
  records; each `refresh_processes` call in the source corresponds to a
  snapshot parameter supplied to the embedded operation;
* `HashMap<String, ManagedService>` is an association list whose list
  order models the map's unspecified iteration order (`services.keys()`
  iterates in that order, lookups are by key);
* process-handle polling (`Child::try_wait`) and kill outcomes are oracle
  parameters, since they are answers the OS gives the program;
* persistence (`save_to_disk`) is an oracle boolean: the file write either
  succeeds or fails, and the code only propagates that result.
-/

namespace AppManager

/-- One entry of the OS process-table snapshot: pid, parent pid,
executable basename, mirroring what `sysinfo` exposes and the code uses. -/
structure Proc where
  pid : Nat
  parent : Option Nat
  name : String
deriving DecidableEq, Repr

/-- A refreshed process-table snapshot (`sysinfo::System` after
`refresh_processes(ProcessesToUpdate::All, true)`). -/
abbrev Snapshot := List Proc

/-- Rust `str::eq_ignore_ascii_case`: equality after lowercasing ASCII
letters only (Lean's `Char.toLower` lowercases exactly ASCII `A`–`Z`). -/
def eqIgnoreAsciiCase (a b : String) : Bool :=
  a.data.map Char.toLower == b.data.map Char.toLower

/-- Path separator characters (`/` and `\`; the application targets
Windows, where `std::path::Path` splits on both). -/
def isSep (c : Char) : Bool :=
  c == '/' || c == Char.ofNat 92

/-- Split a character list at separator characters (the semantics of
`String.split` on `isSep`, written structurally). -/
def splitSeps : List Char → List (List Char)
  | [] => [[]]
  | c :: cs =>
    match isSep c, splitSeps cs with
    | true, r => [] :: r
    | false, [] => [[c]]
    | false, h :: t => (c :: h) :: t

/-- `service.rs::exec_file_name`: `Path::new(exec_path).file_name()`,
falling back to the whole string when there is no final normal component
(`unwrap_or(exec_path)`). Empty and `.` components are ignored by
`file_name`, and a trailing `..` yields `None`, hence the fallback. -/
def exec_file_name (exec_path : String) : String :=
  let comps := ((splitSeps exec_path.data).map String.mk).filter (fun c => !(c == "" || c == "."))
  match comps.getLast? with
  | some last => if last == ".." then exec_path else last
  | none => exec_path

/-- The left-brace character, written via its code point. -/
def lbrace : Char := Char.ofNat 123

/-- The right-brace character, written via its code point. -/
def rbrace : Char := Char.ofNat 125

/-- `format!("\x7b\x7b\x7b\x7d\x7d\x7d", k)` from `service.rs::build_args`:
the placeholder text for key `k`, i.e. `k` wrapped in braces. -/
def placeholder (k : String) : String :=
  String.mk (lbrace :: (k.data ++ [rbrace]))

/-- Rust `str::replace pat -> rep`: replace every non-overlapping
occurrence of `pat`, scanning left to right (on character lists).
The `pat ≠ []` guard only rules out the empty pattern, which the source
never produces (`placeholder` always has length ≥ 2). -/
def replaceAll (pat rep : List Char) : List Char → List Char
  | [] => []
  | c :: cs =>
    if h : pat ≠ [] ∧ pat.isPrefixOf (c :: cs) then
      rep ++ replaceAll pat rep ((c :: cs).drop pat.length)
    else
      c :: replaceAll pat rep cs
termination_by s => s.length
decreasing_by
  · simp only [List.length_drop, List.length_cons]
    have : pat ≠ [] := h.1
    have : 0 < pat.length := List.length_pos.mpr this
    omega
  · simp

/-- `str::replace` on `String`s. -/
def rustReplace (s pat rep : String) : String :=
  String.mk (replaceAll pat.data rep.data s.data)

/-- Whether `pat` occurs as a contiguous substring of `s`
(character-list level). -/
def hasSub (pat : List Char) : List Char → Bool
  | [] => pat.isEmpty
  | c :: cs => pat.isPrefixOf (c :: cs) || hasSub pat cs

/-- `hasSub` on `String`s. -/
def hasSubStr (pat s : String) : Bool :=
  hasSub pat.data s.data

/-- `service.rs::ServiceConfig` (the `env` map is carried as an
association list whose order models the `HashMap`'s unspecified
iteration order). -/
structure WindowsOptions where
  creation_flags : Option Nat
deriving DecidableEq, Repr

structure ServiceConfig where
  id : String
  name : String
  exec : String
  working_dir : Option String
  args : List String
  env : Option (List (String × String))
  windows : Option WindowsOptions
  autorun : Option Bool
  url : Option String
deriving DecidableEq, Repr

/-- The per-argument body of `service.rs::build_args`: clone the
template, then for each `(k, v)` of the env map (in iteration order)
replace the placeholder of `k` by `v`. -/
def substArg (env : Option (List (String × String))) (arg : String) : String :=
  match env with
  | none => arg
  | some envkv => envkv.foldl (fun s kv => rustReplace s (placeholder kv.1) kv.2) arg

/-- `service.rs::build_args`: materialize each argument template
independently via `substArg`. -/
def build_args (args : List String) (env : Option (List (String × String))) : List String :=
  args.map (substArg env)

/-- A `tokio::process::Child` handle; `Child::id()` returns `Option`
(`none` once the child has been reaped). -/
structure Child where
  id : Option Nat
deriving DecidableEq, Repr

/-- `manager.rs::ManagedService`: config, optional owned handle, and the
last-known PID (also set when adopting a process not started by us). -/
structure ManagedService where
  config : ServiceConfig
  process : Option Child
  last_known_pid : Option Nat
deriving DecidableEq, Repr

/-- `ManagedService::new`. -/
def ManagedService.new (config : ServiceConfig) : ManagedService :=
  { config := config, process := none, last_known_pid := none }

/-- `manager.rs::ServiceManager`. `services` is the `HashMap` as an
association list (list order = the map's unspecified iteration order),
`sys` the current `sysinfo::System` snapshot. The config-file path is
irrelevant here: persistence is an oracle. -/
structure ServiceManager where
  services : List (String × ManagedService)
  service_order : List String
  sys : Snapshot
  config_listen : Option String
  keep_alive_interval : Nat
deriving DecidableEq, Repr

/-- `self.services.get_mut(id)` followed by an in-place update `f` of the
entry: rewrite the entry whose key is `id`. -/
def setService (l : List (String × ManagedService)) (id : String)
    (f : ManagedService → ManagedService) : List (String × ManagedService) :=
  l.map (fun kv => if kv.1 = id then (kv.1, f kv.2) else kv)

/-- Outcome of `Child::try_wait` on the owned handle: `Ok(None)` (still
alive), `Ok(Some(status))` (exited), or `Err(_)`. -/
inductive PollResult
  | stillAlive
  | exited
  | pollFailed
deriving DecidableEq, Repr

/-- Probe query `isAlive`: does the snapshot contain an entry with this
pid (`self.sys.process(Pid::from_u32(pid)).is_some()`)? -/
def isAlive (snap : Snapshot) (pid : Nat) : Bool :=
  snap.any (fun p => p.pid == pid)

/-- Probe query of `is_running` tier 3: some process name equals the
target basename or the basename plus `.exe`, ASCII-case-insensitively. -/
def findByNameExe (snap : Snapshot) (target : String) : Bool :=
  snap.any (fun p =>
    eqIgnoreAsciiCase p.name target || eqIgnoreAsciiCase p.name (target ++ ".exe"))

/-- Tail of `manager.rs::ServiceManager::is_running` (lines 117–135):
refresh the snapshot, return `false` if the id is unknown, else check the
last-known PID against the snapshot and fall back to the name check. -/
def is_running_tail (m : ServiceManager) (id : String) (snap : Snapshot) :
    Bool × ServiceManager :=
  let m1 : ServiceManager := { m with sys := snap }
  match List.lookup id m1.services with
  | none => (false, m1)
  | some s =>
    let pidHit :=
      match s.last_known_pid with
      | some pid => isAlive snap pid
      | none => false
    let target := exec_file_name s.config.exec
    (pidHit || findByNameExe snap target, m1)

/-- `manager.rs::ServiceManager::is_running`: tier 1 polls an owned
handle (`try_wait`); alive short-circuits to `true` without refreshing,
an exited or poll-failed handle is cleared and the check falls through to
`is_running_tail`. `poll` is the OS's answer to `try_wait` (only
consulted when a handle exists); `snap` the process table the refresh in
the tail would observe. -/
def is_running (m : ServiceManager) (id : String) (poll : PollResult)
    (snap : Snapshot) : Bool × ServiceManager :=
  match List.lookup id m.services with
  | some svc =>
    match svc.process with
    | some _ =>
      match poll with
      | .stillAlive => (true, m)
      | _ =>
        let m1 : ServiceManager :=
          { m with services := setService m.services id (fun s => { s with process := none }) }
        is_running_tail m1 id snap
    | none => is_running_tail m id snap
  | none => is_running_tail m id snap

/-- The spawn configuration `start` assembles on a
`tokio::process::Command` before calling `spawn()`. `env_overrides`
records any explicit `env`/`envs` calls — the source makes none. -/
structure Cmd where
  program : String
  args : List String
  cwd : Option String
  creation_flags : Nat
  stdin_null : Bool
  stdout_null : Bool
  stderr_null : Bool
  env_overrides : List (String × String)
deriving DecidableEq, Repr

/-- `Path::new(dir).join(child)`: an absolute `child` replaces, otherwise
the components are concatenated. -/
def path_join (dir child : String) : String :=
  if (child.data.head?.map isSep).getD false then child else dir ++ "/" ++ child

/-- The command-building part of `manager.rs::ServiceManager::start`
(lines 148–176): args via `build_args`, program path joined with the
working directory when present, `current_dir`, Windows creation flags
defaulting to `0x00000008`, and all three stdio streams nulled.
No environment override is ever configured on the command. -/
def build_command (cfg : ServiceConfig) : Cmd :=
  { program :=
      match cfg.working_dir with
      | some dir => path_join dir cfg.exec
      | none => cfg.exec
    args := build_args cfg.args cfg.env
    cwd := cfg.working_dir
    creation_flags := ((cfg.windows.map (fun w => w.creation_flags)).join).getD 8
    stdin_null := true
    stdout_null := true
    stderr_null := true
    env_overrides := [] }

/-- Modelled from the `std`/`tokio` `Command` spawn semantics the source
relies on (its own code is outside this repository): a spawned child's
environment is the parent's environment with the command's explicit
overrides applied on top; with no overrides the parent environment is
inherited unchanged. -/
def child_env (parent : List (String × String)) (cmd : Cmd) : List (String × String) :=
  cmd.env_overrides.foldl
    (fun acc kv => (acc.filter (fun e => !(e.1 == kv.1))) ++ [kv]) parent

/-- The OS's answer to `Command::spawn()`. -/
inductive SpawnOutcome
  | ok (child : Child)
  | fail (msg : String)
deriving DecidableEq, Repr

/-- `manager.rs::ServiceManager::start`: no-op returning `Ok` when
`is_running` already answers true; otherwise build the command, spawn it
(`spawn` is the OS oracle, given the built command), and on success
record the child as the owned handle and its pid (`id().unwrap_or(0)`)
as the last-known PID. -/
def start (m : ServiceManager) (id : String) (poll : PollResult)
    (snap : Snapshot) (spawn : Cmd → SpawnOutcome) :
    Except String Unit × ServiceManager :=
  match is_running m id poll snap with
  | (running, m1) =>
    if running then (Except.ok (), m1)
    else
      match List.lookup id m1.services with
      | none => (Except.error "Service id not found", m1)
      | some svc =>
        match spawn (build_command svc.config) with
        | .fail msg => (Except.error msg, m1)
        | .ok child =>
          let pid := child.id.getD 0
          (Except.ok (),
            { m1 with
              services := setService m1.services id
                (fun s => { s with process := some child, last_known_pid := some pid }) })

/-- What `stop` did: the resolved target pid, the child pids of the
tree-kill pass, whether the owned handle was killed (and whether that
kill call errored — the source discards the error), the orphan main kill
attempt, the pids of the fallback name sweep, and the boolean results of
the `sysinfo` kill calls (the source only prints them). -/
structure StopTrace where
  target_pid : Option Nat
  child_kill_pids : List Nat
  child_kill_results : List Bool
  killed_via_handle : Bool
  handle_kill_errored : Bool
  orphan_kill_pid : Option Nat
  orphan_kill_result : Option Bool
  sweep_pids : List Nat
  sweep_kill_results : List Bool
deriving DecidableEq, Repr

/-- `manager.rs::ServiceManager::stop`. `snap1`/`snap2` are the process
tables observed by the two `refresh_processes` calls (the first happens
only when a positive target pid was resolved); `killOk pid` is the OS's
boolean answer to `sysinfo` `Process::kill`, `handleKillErr` whether
`child.kill().await` errored — both are only logged by the source.
Steps: resolve the target pid (`last_known_pid`, else the handle's id);
if positive, refresh and kill every snapshot entry whose parent is the
target; kill the main process via the taken handle if held, else via a
pid lookup in the current snapshot; refresh again and kill every process
whose name case-insensitively equals the executable basename; finally
clear `last_known_pid` unconditionally. -/
def stop (m : ServiceManager) (id : String) (snap1 snap2 : Snapshot)
    (killOk : Nat → Bool) (handleKillErr : Bool) :
    Except String Unit × ServiceManager × StopTrace :=
  match List.lookup id m.services with
  | none =>
    (Except.error "Service id not found", m,
      { target_pid := none, child_kill_pids := [], child_kill_results := []
        killed_via_handle := false, handle_kill_errored := false
        orphan_kill_pid := none, orphan_kill_result := none
        sweep_pids := [], sweep_kill_results := [] })
  | some svc =>
    let target_pid := svc.last_known_pid.orElse (fun _ => svc.process.map (fun p => p.id.getD 0))
    let refreshed : Bool := match target_pid with
      | some pv => decide (0 < pv)
      | none => false
    let m1 : ServiceManager := if refreshed then { m with sys := snap1 } else m
    let children : List Nat :=
      if refreshed then
        ((snap1.filter (fun p => p.parent == target_pid)).map (fun p => p.pid))
      else []
    let m2 : ServiceManager :=
      { m1 with services := setService m1.services id (fun s => { s with process := none }) }
    let orphan_kill_pid : Option Nat :=
      if svc.process.isSome then none
      else match target_pid with
        | some pv => if isAlive m1.sys pv then some pv else none
        | none => none
    let target_name := exec_file_name svc.config.exec
    let m3 : ServiceManager := { m2 with sys := snap2 }
    let remaining : List Nat :=
      (snap2.filter (fun p => eqIgnoreAsciiCase p.name target_name)).map (fun p => p.pid)
    let m4 : ServiceManager :=
      { m3 with services := setService m3.services id (fun s => { s with last_known_pid := none }) }
    (Except.ok (), m4,
      { target_pid := target_pid
        child_kill_pids := children
        child_kill_results := children.map killOk
        killed_via_handle := svc.process.isSome
        handle_kill_errored := svc.process.isSome && handleKillErr
        orphan_kill_pid := orphan_kill_pid
        orphan_kill_result := orphan_kill_pid.map killOk
        sweep_pids := remaining
        sweep_kill_results := remaining.map killOk })

/-- `manager.rs::ServiceManager::save_to_disk`, as the persistence
oracle: the YAML write either succeeds or fails; nothing in memory
changes. -/
def save_to_disk (persistOk : Bool) : Except String Unit :=
  if persistOk then Except.ok () else Except.error "persist failed"

/-- `manager.rs::ServiceManager::upsert_service`: append the id to the
order list when absent; overwrite the existing entry's `config` in place,
or insert a fresh `ManagedService::new`; then persist. -/
def upsert_service (m : ServiceManager) (config : ServiceConfig) (persistOk : Bool) :
    Except String Unit × ServiceManager :=
  let id := config.id
  let order1 := if m.service_order.contains id then m.service_order
                else m.service_order ++ [id]
  let services1 :=
    match List.lookup id m.services with
    | some _ => setService m.services id (fun svc => { svc with config := config })
    | none => m.services ++ [(id, ManagedService.new config)]
  let m1 : ServiceManager := { m with service_order := order1, services := services1 }
  (save_to_disk persistOk, m1)

/-- `manager.rs::ServiceManager::remove_service`: best-effort `stop`
(result discarded), then delete the map entry and retain the order list
without the id and persist, or fail when the id is unknown. -/
def remove_service (m : ServiceManager) (id : String) (snap1 snap2 : Snapshot)
    (killOk : Nat → Bool) (handleKillErr : Bool) (persistOk : Bool) :
    Except String Unit × ServiceManager :=
  let m1 := (stop m id snap1 snap2 killOk handleKillErr).2.1
  match List.lookup id m1.services with
  | some _ =>
    let m2 : ServiceManager :=
      { m1 with
        services := m1.services.filter (fun kv => !(kv.1 == id))
        service_order := m1.service_order.filter (fun x => !(x == id)) }
    (save_to_disk persistOk, m2)
  | none => (Except.error "Service not found", m1)

/-- First loop of `manager.rs::ServiceManager::reorder_services`: walk
the requested ids, keeping those that are known and not yet kept (the
source's `seen` set always holds exactly the ids pushed so far, so
membership in the accumulator is the same check). -/
def reorder_pass1 (m : ServiceManager) : List String → List String → List String
  | acc, [] => acc
  | acc, id :: rest =>
    if (List.lookup id m.services).isSome && !(acc.contains id) then
      reorder_pass1 m (acc ++ [id]) rest
    else
      reorder_pass1 m acc rest

/-- `manager.rs::ServiceManager::reorder_services`: pass 1 over the
requested ids, then a pass over `services.keys()` (the map's iteration
order, i.e. the association-list order) appending every key not kept by
pass 1; install the result as the order list and persist. -/
def reorder_services (m : ServiceManager) (new_order : List String) (persistOk : Bool) :
    Except String Unit × ServiceManager :=
  let pass1 := reorder_pass1 m [] new_order
  let unique_order :=
    m.services.foldl (fun acc kv => if pass1.contains kv.1 then acc else acc ++ [kv.1]) pass1
  let m1 : ServiceManager := { m with service_order := unique_order }
  (save_to_disk persistOk, m1)

/-- `manager.rs::ServiceManager::set_global_config`: overwrite the
keep-alive interval, persist. -/
def set_global_config (m : ServiceManager) (keep_alive : Nat) (persistOk : Bool) :
    Except String Unit × ServiceManager :=
  let m1 : ServiceManager := { m with keep_alive_interval := keep_alive }
  (save_to_disk persistOk, m1)

/-- `service.rs::ServicesFile`. -/
structure ServicesFile where
  listen : Option String
  keep_alive : Option Nat
  services : List ServiceConfig
deriving DecidableEq, Repr

/-- One iteration of the loading loop in `manager.rs::ServiceManager::new`
(lines 65–94): skip duplicate ids (the `seen_ids` set always equals the
content of the order list built so far), push the id onto the order list,
adopt the pid of a process whose name case-insensitively equals the
executable basename when one exists, and insert the entry. -/
def load_step (snap : Snapshot)
    (acc : List (String × ManagedService) × List String) (cfg : ServiceConfig) :
    List (String × ManagedService) × List String :=
  if acc.2.contains cfg.id then acc
  else
    let svc := ManagedService.new cfg
    let exec_name := exec_file_name svc.config.exec
    let svc :=
      match snap.find? (fun p => eqIgnoreAsciiCase p.name exec_name) with
      | some p => { svc with last_known_pid := some p.pid }
      | none => svc
    (acc.1 ++ [(cfg.id, svc)], acc.2 ++ [cfg.id])

/-- `manager.rs::ServiceManager::new` after the config file has been
read and parsed into a `ServicesFile`: fold the loading loop over the
declared services against the startup snapshot. -/
def ServiceManager.new (file : ServicesFile) (snap : Snapshot) : ServiceManager :=
  let acc := file.services.foldl (load_step snap) ([], [])
  { services := acc.1
    service_order := acc.2
    sys := snap
    config_listen := file.listen
    keep_alive_interval := file.keep_alive.getD 0 }

/-- The registry invariant claimed by the spec: the order list and the
map's key list are duplicate-free and contain exactly the same ids. -/
def registryInv (m : ServiceManager) : Prop :=
  m.service_order.Nodup ∧ (m.services.map Prod.fst).Nodup ∧
  (∀ id ∈ m.service_order, id ∈ m.services.map Prod.fst) ∧
  (∀ id ∈ m.services.map Prod.fst, id ∈ m.service_order)

instance (m : ServiceManager) : Decidable (registryInv m) := by
  unfold registryInv; infer_instance

/-- One registry mutation, with the oracle inputs its execution needs. -/
inductive RegistryOp
  | upsert (cfg : ServiceConfig) (persistOk : Bool)
  | remove (id : String) (snap1 snap2 : Snapshot) (killOk : Nat → Bool)
      (handleKillErr : Bool) (persistOk : Bool)
  | reorder (ids : List String) (persistOk : Bool)

/-- Run one registry mutation, keeping the resulting state. -/
def applyRegistryOp (m : ServiceManager) : RegistryOp → ServiceManager
  | .upsert cfg p => (upsert_service m cfg p).2
  | .remove id s1 s2 k h p => (remove_service m id s1 s2 k h p).2
  | .reorder ids p => (reorder_services m ids p).2

/-- Run a sequence of registry mutations. -/
def applyRegistryOps (m : ServiceManager) (ops : List RegistryOp) : ServiceManager :=
  ops.foldl applyRegistryOp m

/-- Stated from the claim's words for comparison with the code: project a
requested id list to the ids satisfying `known`, collapsing duplicates
and keeping only the first occurrence of each id. -/
def firstDedup (known : String → Bool) : List String → List String
  | [] => []
  | x :: xs =>
    if known x then x :: firstDedup known (xs.filter (fun y => !(y == x)))
    else firstDedup known xs
termination_by l => l.length
decreasing_by
  · have := List.length_filter_le (fun y => !(y == x)) xs
    simp only [List.length_cons]; omega
  · simp

/-- `main.rs` lines 62 and 77–85: the Health Monitor's tick interval is
read from the manager once, before the loop is spawned; a zero interval
means the loop is never spawned. -/
def monitor_config (keep_alive_seconds : Nat) : Option Nat :=
  if keep_alive_seconds > 0 then some keep_alive_seconds else none

/-- The running system as `main.rs` assembles it: the shared manager
plus the spawned monitor task's interval (`none` = no monitor task).
The spawned loop closes over the `keep_alive_seconds` local and never
re-reads `manager.keep_alive_interval`, so the monitor interval is a
fixed value, not a reference into the manager. -/
structure RunningSystem where
  mgr : ServiceManager
  monitor_interval : Option Nat
deriving DecidableEq, Repr

/-- System state right after startup (`main.rs` lines 62–119). -/
def boot (m : ServiceManager) : RunningSystem :=
  { mgr := m, monitor_interval := monitor_config m.keep_alive_interval }

/-- The `POST /api/config` handler (`api.rs::update_config`): it only
calls `ServiceManager::set_global_config`; nothing re-reads the interval
into the already-spawned monitor task. -/
def apply_set_keep_alive (sys : RunningSystem) (ka : Nat) (persistOk : Bool) :
    RunningSystem :=
  { sys with mgr := (set_global_config sys.mgr ka persistOk).2 }

/-- A sequence of `setKeepAlive` requests. -/
def apply_set_keep_alive_seq (sys : RunningSystem) (reqs : List (Nat × Bool)) :
    RunningSystem :=
  reqs.foldl (fun s kb => apply_set_keep_alive s kb.1 kb.2) sys

/-! Concrete fixtures for witnesses and counterexamples. -/

/-- A minimal concrete `ServiceConfig`. -/
def cfgMk (id exec : String) : ServiceConfig :=
  { id := id, name := id, exec := exec, working_dir := none, args := []
    env := none, windows := none, autorun := none, url := none }

/-- Fixture: a two-service config file. -/
def fileAB : ServicesFile :=
  { listen := none, keep_alive := none
    services := [cfgMk "a" "alpha", cfgMk "b" "beta"] }

/-- Fixture manager with services `a`, `b`, freshly loaded from
`fileAB` against an empty process table. -/
def mgrAB : ServiceManager := ServiceManager.new fileAB []

/-- Fixture: `mgrAB` after `reorder(["b"])`, so the order list is
`["b", "a"]` while the map iteration order is still `a` then `b`. -/
def mgrBA : ServiceManager := (reorder_services mgrAB ["b"] true).2

/-- Fixture: a managed service holding an owned handle with pid 5 while
the last-known PID is 7 (handle pid and last-known PID disagreeing). -/
def svcHandle : ManagedService :=
  { config := cfgMk "s" "srv", process := some { id := some 5 }, last_known_pid := some 7 }

/-- Fixture manager holding `svcHandle` under id `s`. -/
def mgrHandle : ServiceManager :=
  { services := [("s", svcHandle)]
    service_order := ["s"]
    sys := []
    config_listen := none
    keep_alive_interval := 0 }

/-- Fixture: a managed service holding an owned handle with pid 9. -/
def svcRun : ManagedService :=
  { config := cfgMk "r" "run", process := some { id := some 9 }, last_known_pid := some 9 }

/-- Fixture manager whose single service `r` holds an owned handle. -/
def mgrRun : ServiceManager :=
  { services := [("r", svcRun)]
    service_order := ["r"]
    sys := []
    config_listen := none
    keep_alive_interval := 0 }

/-- Fixture spawn oracle that refuses every spawn. -/
def spawnFail : Cmd → SpawnOutcome := fun _ => SpawnOutcome.fail "spawn refused"

/-! Helper lemmas about association lists. -/

theorem lookup_cons {β : Type} (id : String) (kv : String × β) (rest : List (String × β)) :
    List.lookup id (kv :: rest) = if id = kv.1 then some kv.2 else List.lookup id rest := by
  by_cases h : id = kv.1
  · simp [List.lookup, h]
  · have hb : (id == kv.1) = false := beq_eq_false_iff_ne.mpr h
    simp [List.lookup, hb, h]

theorem lookup_isSome_iff {β : Type} (id : String) (l : List (String × β)) :
    (List.lookup id l).isSome = true ↔ id ∈ l.map Prod.fst := by
  induction l with
  | nil => simp [List.lookup]
  | cons kv rest ih =>
    rw [lookup_cons]
    by_cases h : id = kv.1
    · simp [h]
    · simp only [if_neg h, List.map_cons, List.mem_cons, ih]
      exact ⟨fun hm => Or.inr hm, fun hm => hm.elim (fun he => absurd he h) (fun hm2 => hm2)⟩

theorem lookup_eq_none_iff {β : Type} (id : String) (l : List (String × β)) :
    List.lookup id l = none ↔ id ∉ l.map Prod.fst := by
  rw [← lookup_isSome_iff]
  cases List.lookup id l <;> simp

theorem lookup_append {β : Type} (id : String) (l1 l2 : List (String × β)) :
    List.lookup id (l1 ++ l2) =
      match List.lookup id l1 with
      | some v => some v
      | none => List.lookup id l2 := by
  induction l1 with
  | nil => simp [List.lookup]
  | cons kv rest ih =>
    rw [List.cons_append, lookup_cons, lookup_cons]
    by_cases h : id = kv.1
    · simp [h]
    · simp [h, ih]

theorem setService_cons (kv : String × ManagedService) (rest : List (String × ManagedService))
    (id : String) (f : ManagedService → ManagedService) :
    setService (kv :: rest) id f =
      (if kv.1 = id then (kv.1, f kv.2) else kv) :: setService rest id f := by
  simp [setService]

theorem keys_setService (l : List (String × ManagedService)) (id : String)
    (f : ManagedService → ManagedService) :
    (setService l id f).map Prod.fst = l.map Prod.fst := by
  unfold setService
  rw [List.map_map]
  apply List.map_congr_left
  intro kv _
  by_cases h : kv.1 = id <;> simp [h]

theorem lookup_setService_self (l : List (String × ManagedService)) (id : String)
    (f : ManagedService → ManagedService) :
    List.lookup id (setService l id f) = (List.lookup id l).map f := by
  induction l with
  | nil => rfl
  | cons kv rest ih =>
    rw [setService_cons, lookup_cons]
    by_cases h : kv.1 = id
    · rw [if_pos h, lookup_cons]
      simp [h.symm]
    · have h2 : ¬ id = kv.1 := fun he => h he.symm
      rw [if_neg h, lookup_cons, if_neg h2, if_neg h2, ih]

theorem lookup_setService_ne (l : List (String × ManagedService)) (id k : String)
    (f : ManagedService → ManagedService) (hne : ¬ k = id) :
    List.lookup k (setService l id f) = List.lookup k l := by
  induction l with
  | nil => rfl
  | cons kv rest ih =>
    rw [setService_cons, lookup_cons]
    by_cases h : kv.1 = id
    · rw [if_pos h, lookup_cons]
      have h2 : ¬ k = kv.1 := fun he => hne (he.trans h)
      simp only [if_neg h2]
      exact ih
    · rw [if_neg h, lookup_cons]
      by_cases h2 : k = kv.1
      · simp [h2]
      · simp only [if_neg h2]
        exact ih

theorem keys_filter_ne (l : List (String × ManagedService)) (id : String) :
    ((l.filter (fun kv => !(kv.1 == id))).map Prod.fst) =
      (l.map Prod.fst).filter (fun x => !(x == id)) := by
  induction l with
  | nil => rfl
  | cons kv rest ih =>
    by_cases h : kv.1 = id
    · have hb : (kv.1 == id) = true := beq_iff_eq.mpr h
      simp [List.filter, hb, ih]
    · have hb : (kv.1 == id) = false := beq_eq_false_iff_ne.mpr h
      simp [List.filter, hb, ih]

theorem contains_iff_mem (l : List String) (a : String) :
    l.contains a = true ↔ a ∈ l := by
  simp

/-! Helper lemmas about `is_running`. -/

theorem is_running_tail_state (m : ServiceManager) (id : String) (snap : Snapshot) :
    (is_running_tail m id snap).2 = { m with sys := snap } := by
  unfold is_running_tail
  rcases hl : List.lookup id m.services with _ | s <;> simp [hl]

theorem is_running_tail_result (m : ServiceManager) (id : String) (snap : Snapshot) :
    (is_running_tail m id snap).1 =
      match List.lookup id m.services with
      | none => false
      | some s =>
        (s.last_known_pid.elim false (fun pid => isAlive snap pid)
          || findByNameExe snap (exec_file_name s.config.exec)) := by
  unfold is_running_tail
  rcases hl : List.lookup id m.services with _ | s
  · simp [hl]
  · rcases hp : s.last_known_pid with _ | pid <;> simp [hl, hp]

theorem is_running_cases (m : ServiceManager) (id : String) (poll : PollResult)
    (snap : Snapshot) :
    (is_running m id poll snap).2 = m ∨
    (is_running m id poll snap).2 = { m with sys := snap } ∨
    (is_running m id poll snap).2 =
      { m with sys := snap,
               services := setService m.services id (fun s => { s with process := none }) } := by
  unfold is_running
  rcases hl : List.lookup id m.services with _ | svc
  · dsimp only
    right; left
    exact is_running_tail_state m id snap
  · dsimp only
    rcases hp : svc.process with _ | c
    · dsimp only
      right; left
      exact is_running_tail_state m id snap
    · dsimp only
      cases poll with
      | stillAlive => left; rfl
      | exited =>
        dsimp only
        right; right
        rw [is_running_tail_state]
      | pollFailed =>
        dsimp only
        right; right
        rw [is_running_tail_state]

/-- C1: `isRunning` is the three-tier check: for an id in the registry the
result is the short-circuit disjunction of (1) an owned handle polling as
still alive, (2) a recorded last-known PID present in the refreshed
snapshot, (3) some snapshot process whose basename case-insensitively
equals the configured executable basename with or without `.exe`; an
exited or poll-failed handle is cleared; an id absent from the registry
yields `false`. -/
theorem C1_is_running_three_tier (m : ServiceManager) (id : String)
    (poll : PollResult) (snap : Snapshot) :
    (List.lookup id m.services = none → (is_running m id poll snap).1 = false)
    ∧ (∀ svc, List.lookup id m.services = some svc →
        ((is_running m id poll snap).1 =
          ((svc.process.isSome && (poll == PollResult.stillAlive))
            || svc.last_known_pid.elim false (fun pid => isAlive snap pid)
            || findByNameExe snap (exec_file_name svc.config.exec)))
        ∧ (svc.process.isSome = true → ¬ poll = PollResult.stillAlive →
            ∃ svc2, List.lookup id (is_running m id poll snap).2.services = some svc2
              ∧ svc2.process = none)) := by
  constructor
  · intro hl
    unfold is_running
    rw [hl]
    dsimp only
    rw [is_running_tail_result]
    simp [hl]
  · intro svc hl
    unfold is_running
    rw [hl]
    dsimp only
    rcases hp : svc.process with _ | c
    · dsimp only
      constructor
      · rw [is_running_tail_result, hl]
        simp [hp]
      · intro habs _
        simp at habs
    · dsimp only
      cases poll with
      | stillAlive =>
        constructor
        · simp [hp]
        · intro _ hcontra
          exact absurd rfl hcontra
      | exited =>
        constructor
        · rw [is_running_tail_result]
          show (match List.lookup id (setService m.services id
              (fun s => { s with process := none })) with
            | none => false
            | some s => (s.last_known_pid.elim false (fun pid => isAlive snap pid)
                || findByNameExe snap (exec_file_name s.config.exec))) = _
          rw [lookup_setService_self, hl]
          have hb : (PollResult.exited == PollResult.stillAlive) = false := rfl
          simp [hp, hb]
        · intro _ _
          rw [is_running_tail_state]
          refine ⟨{ svc with process := none }, ?_, rfl⟩
          show List.lookup id (setService m.services id (fun s => { s with process := none }))
            = some { svc with process := none }
          rw [lookup_setService_self, hl]
          rfl
      | pollFailed =>
        constructor
        · rw [is_running_tail_result]
          show (match List.lookup id (setService m.services id
              (fun s => { s with process := none })) with
            | none => false
            | some s => (s.last_known_pid.elim false (fun pid => isAlive snap pid)
                || findByNameExe snap (exec_file_name s.config.exec))) = _
          rw [lookup_setService_self, hl]
          have hb : (PollResult.pollFailed == PollResult.stillAlive) = false := rfl
          simp [hp, hb]
        · intro _ _
          rw [is_running_tail_state]
          refine ⟨{ svc with process := none }, ?_, rfl⟩
          show List.lookup id (setService m.services id (fun s => { s with process := none }))
            = some { svc with process := none }
          rw [lookup_setService_self, hl]
          rfl

/-- Witness for C1 at concrete inputs: the id `ghost` is unknown to
`mgrRun`, so `isRunning` is false; for the known id `r` whose handle
polls as exited and while a process named `run` is in the snapshot, the
tier formula evaluates the result, and the stale handle is cleared. -/
theorem C1_is_running_three_tier_witness :
    (is_running mgrRun "ghost" PollResult.stillAlive []).1 = false
    ∧ ((is_running mgrRun "r" PollResult.exited [⟨3, none, "RUN"⟩]).1 = true
        ∧ ∃ svc2,
            List.lookup "r" (is_running mgrRun "r" PollResult.exited [⟨3, none, "RUN"⟩]).2.services
              = some svc2 ∧ svc2.process = none) := by
  refine ⟨(C1_is_running_three_tier mgrRun "ghost" PollResult.stillAlive []).1 (by decide),
    ?_, ?_⟩
  · have h := ((C1_is_running_three_tier mgrRun "r" PollResult.exited
      [⟨3, none, "RUN"⟩]).2 svcRun (by decide)).1
    rw [h]
    decide
  · exact ((C1_is_running_three_tier mgrRun "r" PollResult.exited
      [⟨3, none, "RUN"⟩]).2 svcRun (by decide)).2 (by decide) (by decide)

/-- C6: `start` on an id for which `isRunning` answers true is an
idempotent no-op returning success: the state is exactly `is_running`'s
post-state, the result does not depend on the spawn oracle at all (so no
process is spawned and no `SpawnError` can occur), and the service keeps
its last-known PID while its handle is at most cleared — never newly
recorded. -/
theorem C6_start_idempotent (m : ServiceManager) (id : String) (poll : PollResult)
    (snap : Snapshot) (spawn : Cmd → SpawnOutcome)
    (h : (is_running m id poll snap).1 = true) :
    start m id poll snap spawn = (Except.ok (), (is_running m id poll snap).2)
    ∧ (∀ spawn2, start m id poll snap spawn2 = start m id poll snap spawn)
    ∧ (∀ svc, List.lookup id m.services = some svc →
        ∃ svc2, List.lookup id (start m id poll snap spawn).2.services = some svc2
          ∧ svc2.last_known_pid = svc.last_known_pid
          ∧ (svc2.process = svc.process ∨ svc2.process = none)) := by
  have hp : is_running m id poll snap = (true, (is_running m id poll snap).2) := by
    rw [← h]
  have hstart : ∀ sp, start m id poll snap sp = (Except.ok (), (is_running m id poll snap).2) := by
    intro sp
    unfold start
    rw [hp]
    rfl
  refine ⟨hstart spawn, fun spawn2 => (hstart spawn2).trans (hstart spawn).symm, ?_⟩
  intro svc hl
  rw [hstart spawn]
  rcases is_running_cases m id poll snap with hc | hc | hc
  · rw [hc]
    exact ⟨svc, hl, rfl, Or.inl rfl⟩
  · rw [hc]
    exact ⟨svc, hl, rfl, Or.inl rfl⟩
  · rw [hc]
    refine ⟨{ svc with process := none }, ?_, rfl, Or.inr rfl⟩
    show List.lookup id (setService m.services id (fun s => { s with process := none }))
      = some { svc with process := none }
    rw [lookup_setService_self, hl]
    rfl

/-- Witness for C6: service `r` of `mgrRun` holds a handle polling as
alive, so `start` with a spawn oracle that refuses every spawn still
returns success and leaves the manager untouched. -/
theorem C6_start_idempotent_witness :
    start mgrRun "r" PollResult.stillAlive [] spawnFail = (Except.ok (), mgrRun) := by
  have h := (C6_start_idempotent mgrRun "r" PollResult.stillAlive [] spawnFail (by decide)).1
  have h2 : (is_running mgrRun "r" PollResult.stillAlive []).2 = mgrRun := by decide
  rw [h, h2]

/-! Helper lemmas about `stop`. -/

theorem stop_spec_some (m : ServiceManager) (id : String) (snap1 snap2 : Snapshot)
    (killOk : Nat → Bool) (hkErr : Bool) (svc : ManagedService)
    (hl : List.lookup id m.services = some svc) :
    (stop m id snap1 snap2 killOk hkErr).1 = Except.ok ()
    ∧ (stop m id snap1 snap2 killOk hkErr).2.1 =
        { m with
          sys := snap2
          services := setService
            (setService m.services id (fun s => { s with process := none })) id
            (fun s => { s with last_known_pid := none }) }
    ∧ (stop m id snap1 snap2 killOk hkErr).2.2.sweep_pids =
        ((snap2.filter (fun p => eqIgnoreAsciiCase p.name (exec_file_name svc.config.exec))).map
          (fun p => p.pid))
    ∧ (stop m id snap1 snap2 killOk hkErr).2.2.target_pid =
        svc.last_known_pid.orElse (fun _ => svc.process.map (fun p => p.id.getD 0)) := by
  unfold stop
  rw [hl]
  dsimp only
  refine ⟨rfl, ?_, rfl, rfl⟩
  rcases htp : svc.last_known_pid.orElse (fun _ => svc.process.map (fun p => p.id.getD 0))
    with _ | pv
  · rw [htp]
    simp
  · rw [htp]
    dsimp only
    by_cases hz : (0 : Nat) < pv
    · simp [hz]
    · simp [hz]

theorem stop_spec_none (m : ServiceManager) (id : String) (snap1 snap2 : Snapshot)
    (killOk : Nat → Bool) (hkErr : Bool)
    (hl : List.lookup id m.services = none) :
    (stop m id snap1 snap2 killOk hkErr).1 = Except.error "Service id not found"
    ∧ (stop m id snap1 snap2 killOk hkErr).2.1 = m := by
  unfold stop
  rw [hl]
  exact ⟨rfl, rfl⟩

/-- C2: for an id present in the registry, `stop` returns success; the
result and the resulting state are independent of every kill outcome
(failures are absorbed); the fallback sweep unconditionally targets every
process of the second refresh whose basename matches the service's
executable basename; afterwards the service's last-known PID is `none`
and no owned handle remains. Only an id absent from the registry yields
an error. -/
theorem C2_stop_absorbs_failures (m : ServiceManager) (id : String)
    (snap1 snap2 : Snapshot) (killOk : Nat → Bool) (hkErr : Bool) :
    (∀ svc, List.lookup id m.services = some svc →
        (stop m id snap1 snap2 killOk hkErr).1 = Except.ok ()
        ∧ (stop m id snap1 snap2 killOk hkErr).2.2.sweep_pids =
            ((snap2.filter (fun p =>
                eqIgnoreAsciiCase p.name (exec_file_name svc.config.exec))).map (fun p => p.pid))
        ∧ (∃ svc2, List.lookup id (stop m id snap1 snap2 killOk hkErr).2.1.services = some svc2
            ∧ svc2.last_known_pid = none ∧ svc2.process = none)
        ∧ (∀ (killOk2 : Nat → Bool) (hkErr2 : Bool),
            (stop m id snap1 snap2 killOk2 hkErr2).1 = (stop m id snap1 snap2 killOk hkErr).1
            ∧ (stop m id snap1 snap2 killOk2 hkErr2).2.1 =
                (stop m id snap1 snap2 killOk hkErr).2.1))
    ∧ (List.lookup id m.services = none →
        (stop m id snap1 snap2 killOk hkErr).1 = Except.error "Service id not found") := by
  constructor
  · intro svc hl
    obtain ⟨hok, hstate, hsweep, -⟩ := stop_spec_some m id snap1 snap2 killOk hkErr svc hl
    refine ⟨hok, hsweep, ?_, ?_⟩
    · rw [hstate]
      refine ⟨{ svc with process := none, last_known_pid := none }, ?_, rfl, rfl⟩
      show List.lookup id (setService
          (setService m.services id (fun s => { s with process := none })) id
          (fun s => { s with last_known_pid := none }))
        = some { svc with process := none, last_known_pid := none }
      rw [lookup_setService_self, lookup_setService_self, hl]
      rfl
    · intro killOk2 hkErr2
      obtain ⟨hok2, hstate2, -, -⟩ := stop_spec_some m id snap1 snap2 killOk2 hkErr2 svc hl
      exact ⟨hok2.trans hok.symm, hstate2.trans hstate.symm⟩
  · intro hl
    exact (stop_spec_none m id snap1 snap2 killOk hkErr hl).1

/-- Witness for C2: stopping `s` of `mgrHandle` with every kill failing
still succeeds, while stopping an id unknown to `mgrHandle` errors. -/
theorem C2_stop_absorbs_failures_witness :
    (stop mgrHandle "s" [] [] (fun _ => false) true).1 = Except.ok ()
    ∧ (stop mgrHandle "ghost" [] [] (fun _ => false) true).1 =
        Except.error "Service id not found" :=
  ⟨((C2_stop_absorbs_failures mgrHandle "s" [] [] (fun _ => false) true).1 svcHandle
      (by decide)).1,
    (C2_stop_absorbs_failures mgrHandle "ghost" [] [] (fun _ => false) true).2 (by decide)⟩

/-- C3 counterexample: in `mgrHandle` the owned handle's pid is 5 and the
last-known PID is 7; the claim says the target PID for `stop` is the
handle's pid (5) whenever a handle is held, but the code resolves 7. -/
theorem C3_counterexample :
    svcHandle.process = some { id := some 5 }
    ∧ (stop mgrHandle "s" [] [] (fun _ => false) false).2.2.target_pid = some 7
    ∧ ¬ (stop mgrHandle "s" [] [] (fun _ => false) false).2.2.target_pid = some 5 := by
  decide

/-- C3 amended: in `stop`, the target PID used for child enumeration and
main-process termination is the last-known PID whenever one is recorded,
and only otherwise the owned handle's pid (`id().unwrap_or(0)`) — the
opposite priority of the claim; the two coincide whenever handle pid and
last-known PID agree. -/
theorem C3_stop_target_pid (m : ServiceManager) (id : String)
    (snap1 snap2 : Snapshot) (killOk : Nat → Bool) (hkErr : Bool)
    (svc : ManagedService) (hl : List.lookup id m.services = some svc) :
    (stop m id snap1 snap2 killOk hkErr).2.2.target_pid =
      match svc.last_known_pid with
      | some p => some p
      | none => svc.process.map (fun c => c.id.getD 0) := by
  rw [(stop_spec_some m id snap1 snap2 killOk hkErr svc hl).2.2.2]
  cases svc.last_known_pid <;> rfl

/-- Witness for the amended C3 at `mgrHandle`: the recorded last-known
PID 7 wins over the held handle's pid 5. -/
theorem C3_stop_target_pid_witness :
    (stop mgrHandle "s" [] [] (fun _ => false) false).2.2.target_pid = some 7 := by
  rw [C3_stop_target_pid mgrHandle "s" [] [] (fun _ => false) false svcHandle (by decide)]
  decide

/-- C7: `upsert` with a new id appends exactly that id at the end of the
order list and creates a fresh entry (`ManagedService.new`: no handle, no
last-known PID); `upsert` with an existing id overwrites that service's
definition wholesale in place, leaving order position, owned handle and
last-known PID untouched; other entries are never touched; the operation
errors exactly when persistence fails. -/
theorem C7_upsert_frame (m : ServiceManager) (config : ServiceConfig) (persistOk : Bool)
    (hin : registryInv m) :
    (List.lookup config.id m.services = none →
        (upsert_service m config persistOk).2.service_order = m.service_order ++ [config.id]
        ∧ List.lookup config.id (upsert_service m config persistOk).2.services
            = some (ManagedService.new config)
        ∧ (∀ k, ¬ k = config.id →
            List.lookup k (upsert_service m config persistOk).2.services
              = List.lookup k m.services))
    ∧ (∀ svc, List.lookup config.id m.services = some svc →
        (upsert_service m config persistOk).2.service_order = m.service_order
        ∧ List.lookup config.id (upsert_service m config persistOk).2.services
            = some { svc with config := config }
        ∧ (∀ k, ¬ k = config.id →
            List.lookup k (upsert_service m config persistOk).2.services
              = List.lookup k m.services))
    ∧ ((upsert_service m config persistOk).1 = Except.ok () ↔ persistOk = true) := by
  obtain ⟨hOrderNd, hKeysNd, hOrdKeys, hKeysOrd⟩ := hin
  refine ⟨?_, ?_, ?_⟩
  · intro hl
    have hnotk : config.id ∉ m.services.map Prod.fst := (lookup_eq_none_iff _ _).1 hl
    have hnoto : config.id ∉ m.service_order := fun hmem => hnotk (hOrdKeys _ hmem)
    have hcont : ¬ m.service_order.contains config.id = true := fun hc =>
      hnoto ((contains_iff_mem _ _).1 hc)
    unfold upsert_service
    dsimp only
    rw [hl, if_neg hcont]
    refine ⟨rfl, ?_, ?_⟩
    · rw [lookup_append, hl]
      rw [lookup_cons]
      simp
    · intro k hk
      rw [lookup_append]
      rcases hlk : List.lookup k m.services with _ | v
      · rw [lookup_cons]
        simp [hk]
      · rfl
  · intro svc hl
    have hk : config.id ∈ m.services.map Prod.fst := by
      rw [← lookup_isSome_iff, hl]; rfl
    have hcont : m.service_order.contains config.id = true :=
      (contains_iff_mem _ _).2 (hKeysOrd _ hk)
    unfold upsert_service
    dsimp only
    rw [hl, if_pos hcont]
    refine ⟨rfl, ?_, ?_⟩
    · rw [lookup_setService_self, hl]
      rfl
    · intro k hk2
      exact lookup_setService_ne _ _ _ _ hk2
  · unfold upsert_service
    cases persistOk <;> simp [save_to_disk]

/-- Witness for C7: upserting the new id `c` into `mgrAB` appends `c` to
the order list; upserting a replacement definition for the existing id
`a` leaves the order list unchanged. -/
theorem C7_upsert_frame_witness :
    (upsert_service mgrAB (cfgMk "c" "gamma") true).2.service_order = ["a", "b", "c"]
    ∧ (upsert_service mgrAB (cfgMk "a" "omega") true).2.service_order = ["a", "b"] := by
  constructor
  · have h := ((C7_upsert_frame mgrAB (cfgMk "c" "gamma") true (by decide)).1 (by decide)).1
    rw [h]
    decide
  · have h := ((C7_upsert_frame mgrAB (cfgMk "a" "omega") true (by decide)).2.1
      (ManagedService.new (cfgMk "a" "alpha")) (by decide)).1
    rw [h]
    decide

/-! Helper lemmas for the registry invariant and `reorder_services`. -/

theorem contains_append_str (l1 l2 : List String) (a : String) :
    (l1 ++ l2).contains a = (l1.contains a || l2.contains a) := by
  rw [Bool.eq_iff_iff]
  simp

theorem contains_singleton_str (x a : String) : ([x] : List String).contains a = (a == x) := by
  rw [Bool.eq_iff_iff]
  simp

theorem stop_keys_order (m : ServiceManager) (id : String) (snap1 snap2 : Snapshot)
    (killOk : Nat → Bool) (hkErr : Bool) :
    (stop m id snap1 snap2 killOk hkErr).2.1.services.map Prod.fst = m.services.map Prod.fst
    ∧ (stop m id snap1 snap2 killOk hkErr).2.1.service_order = m.service_order := by
  rcases hl : List.lookup id m.services with _ | svc
  · rw [(stop_spec_none m id snap1 snap2 killOk hkErr hl).2]
    exact ⟨rfl, rfl⟩
  · rw [(stop_spec_some m id snap1 snap2 killOk hkErr svc hl).2.1]
    dsimp only
    rw [keys_setService, keys_setService]
    exact ⟨rfl, rfl⟩

theorem contains_false_not_mem {l : List String} {a : String} (h : l.contains a = false) :
    a ∉ l := fun hm => by
  have h2 := (contains_iff_mem l a).2 hm
  rw [h] at h2
  exact Bool.noConfusion h2

theorem reorder_pass2_eq (pass1 : List String) (svcs : List (String × ManagedService)) :
    ∀ (acc : List String),
    svcs.foldl (fun acc kv => if pass1.contains kv.1 then acc else acc ++ [kv.1]) acc
      = acc ++ (svcs.map Prod.fst).filter (fun k => !(pass1.contains k)) := by
  induction svcs with
  | nil =>
    intro acc
    simp
  | cons kv rest ih =>
    intro acc
    simp only [List.foldl_cons, List.map_cons, List.filter_cons]
    cases hc : pass1.contains kv.1
    · rw [if_neg (show ¬ (false = true) by decide), ih,
        if_pos (show (!false) = true by decide)]
      simp [List.append_assoc]
    · rw [if_pos (show (true = true) from rfl), ih,
        if_neg (show ¬ ((!true) = true) by decide)]

theorem reorder_pass1_spec (m : ServiceManager) (l : List String) :
    ∀ (acc : List String), acc.Nodup →
    (reorder_pass1 m acc l).Nodup
    ∧ (∀ x, x ∈ reorder_pass1 m acc l ↔
        x ∈ acc ∨ (x ∈ l ∧ (List.lookup x m.services).isSome = true)) := by
  induction l with
  | nil =>
    intro acc hacc
    constructor
    · simpa [reorder_pass1] using hacc
    · intro x
      simp [reorder_pass1]
  | cons idv rest ih =>
    intro acc hacc
    unfold reorder_pass1
    cases hk : (List.lookup idv m.services).isSome
    · rw [Bool.false_and, if_neg (show ¬ (false = true) by decide)]
      obtain ⟨hnd, hmem⟩ := ih acc hacc
      refine ⟨hnd, fun x => ?_⟩
      rw [hmem x]
      constructor
      · rintro (h1 | ⟨h2, h3⟩)
        · exact Or.inl h1
        · exact Or.inr ⟨List.mem_cons_of_mem _ h2, h3⟩
      · rintro (h1 | ⟨h2, h3⟩)
        · exact Or.inl h1
        · rcases List.mem_cons.mp h2 with he | hr
          · exact absurd (he ▸ h3) (by simp [hk])
          · exact Or.inr ⟨hr, h3⟩
    · cases hc : acc.contains idv
      · rw [Bool.true_and, if_pos (show (!false) = true by decide)]
        have hnotin : idv ∉ acc := contains_false_not_mem hc
        have hacc2 : (acc ++ [idv]).Nodup := by
          rw [List.nodup_append]
          refine ⟨hacc, List.nodup_singleton idv, ?_⟩
          intro a ha hb
          rw [List.mem_singleton] at hb
          subst hb
          exact hnotin ha
        obtain ⟨hnd, hmem⟩ := ih (acc ++ [idv]) hacc2
        refine ⟨hnd, fun x => ?_⟩
        rw [hmem x]
        simp only [List.mem_append, List.mem_singleton, List.mem_cons, List.not_mem_nil,
          or_false]
        constructor
        · rintro ((h1 | h1) | ⟨h2, h3⟩)
          · exact Or.inl h1
          · subst h1
            exact Or.inr ⟨Or.inl rfl, hk⟩
          · exact Or.inr ⟨Or.inr h2, h3⟩
        · rintro (h1 | ⟨(h2 | h2), h3⟩)
          · exact Or.inl (Or.inl h1)
          · subst h2
            exact Or.inl (Or.inr rfl)
          · exact Or.inr ⟨h2, h3⟩
      · rw [Bool.true_and, if_neg (show ¬ ((!true) = true) by decide)]
        obtain ⟨hnd, hmem⟩ := ih acc hacc
        have hin : idv ∈ acc := (contains_iff_mem acc idv).1 hc
        refine ⟨hnd, fun x => ?_⟩
        rw [hmem x]
        simp only [List.mem_cons]
        constructor
        · rintro (h1 | ⟨h2, h3⟩)
          · exact Or.inl h1
          · exact Or.inr ⟨Or.inr h2, h3⟩
        · rintro (h1 | ⟨(h2 | h2), h3⟩)
          · exact Or.inl h1
          · subst h2
            exact Or.inl hin
          · exact Or.inr ⟨h2, h3⟩

theorem reorder_state (m : ServiceManager) (ids : List String) (p : Bool) :
    (reorder_services m ids p).2.service_order =
      reorder_pass1 m [] ids ++
        (m.services.map Prod.fst).filter
          (fun k => !((reorder_pass1 m [] ids).contains k))
    ∧ (reorder_services m ids p).2.services = m.services := by
  unfold reorder_services
  dsimp only
  rw [reorder_pass2_eq]
  exact ⟨rfl, rfl⟩

theorem reorder_order_spec (m : ServiceManager) (ids : List String) (p : Bool)
    (hKeys : (m.services.map Prod.fst).Nodup) :
    (reorder_services m ids p).2.service_order.Nodup
    ∧ (∀ x, x ∈ (reorder_services m ids p).2.service_order ↔
        x ∈ m.services.map Prod.fst) := by
  obtain ⟨horder, -⟩ := reorder_state m ids p
  obtain ⟨hp1nd, hp1mem⟩ := reorder_pass1_spec m ids [] List.nodup_nil
  constructor
  · rw [horder, List.nodup_append]
    refine ⟨hp1nd, hKeys.filter _, ?_⟩
    intro a ha hb
    have hcb := List.of_mem_filter hb
    have hcf : (reorder_pass1 m [] ids).contains a = false := by
      cases hcc : (reorder_pass1 m [] ids).contains a
      · rfl
      · rw [hcc] at hcb
        exact Bool.noConfusion hcb
    exact (contains_false_not_mem hcf) ha
  · intro x
    rw [horder]
    constructor
    · intro hx
      rcases List.mem_append.mp hx with hA | hB
      · rcases (hp1mem x).1 hA with h0 | ⟨-, hS⟩
        · exact absurd h0 (List.not_mem_nil x)
        · exact (lookup_isSome_iff x m.services).1 hS
      · exact List.mem_of_mem_filter hB
    · intro hx
      by_cases hp : x ∈ reorder_pass1 m [] ids
      · exact List.mem_append.mpr (Or.inl hp)
      · refine List.mem_append.mpr (Or.inr (List.mem_filter.mpr ⟨hx, ?_⟩))
        have hcf : (reorder_pass1 m [] ids).contains x = false := by
          cases hcc : (reorder_pass1 m [] ids).contains x
          · rfl
          · exact absurd ((contains_iff_mem _ _).1 hcc) hp
        rw [hcf]
        rfl

theorem inv_reorder (m : ServiceManager) (ids : List String) (p : Bool)
    (h : registryInv m) : registryInv (reorder_services m ids p).2 := by
  obtain ⟨-, hKeys, -, -⟩ := h
  obtain ⟨hnd, hmem⟩ := reorder_order_spec m ids p hKeys
  obtain ⟨-, hsvcs⟩ := reorder_state m ids p
  refine ⟨hnd, ?_, ?_, ?_⟩
  · rw [hsvcs]
    exact hKeys
  · intro idv hidv
    rw [hsvcs]
    exact (hmem idv).1 hidv
  · intro idv hidv
    rw [hsvcs] at hidv
    exact (hmem idv).2 hidv

theorem inv_upsert (m : ServiceManager) (cfg : ServiceConfig) (p : Bool)
    (h : registryInv m) : registryInv (upsert_service m cfg p).2 := by
  obtain ⟨hOrd, hKeys, h1, h2⟩ := h
  rcases hl : List.lookup cfg.id m.services with _ | svc
  · have hnotk : cfg.id ∉ m.services.map Prod.fst := (lookup_eq_none_iff _ _).1 hl
    have hnoto : cfg.id ∉ m.service_order := fun hm => hnotk (h1 _ hm)
    have hcont : ¬ m.service_order.contains cfg.id = true := fun hc =>
      hnoto ((contains_iff_mem _ _).1 hc)
    unfold upsert_service
    dsimp only
    rw [hl, if_neg hcont]
    have hkeys2 : ((m.services ++ [(cfg.id, ManagedService.new cfg)]).map Prod.fst)
        = m.services.map Prod.fst ++ [cfg.id] := by
      simp
    refine ⟨?_, ?_, ?_, ?_⟩
    · rw [List.nodup_append]
      refine ⟨hOrd, List.nodup_singleton _, ?_⟩
      intro a ha hb
      rw [List.mem_singleton] at hb
      subst hb
      exact hnoto ha
    · rw [hkeys2, List.nodup_append]
      refine ⟨hKeys, List.nodup_singleton _, ?_⟩
      intro a ha hb
      rw [List.mem_singleton] at hb
      subst hb
      exact hnotk ha
    · intro idv hidv
      rw [hkeys2]
      rcases List.mem_append.mp hidv with hA | hB
      · exact List.mem_append.mpr (Or.inl (h1 _ hA))
      · exact List.mem_append.mpr (Or.inr hB)
    · intro idv hidv
      rw [hkeys2] at hidv
      rcases List.mem_append.mp hidv with hA | hB
      · exact List.mem_append.mpr (Or.inl (h2 _ hA))
      · exact List.mem_append.mpr (Or.inr hB)
  · have hk : cfg.id ∈ m.services.map Prod.fst := by
      rw [← lookup_isSome_iff, hl]
      rfl
    have hcont : m.service_order.contains cfg.id = true :=
      (contains_iff_mem _ _).2 (h2 _ hk)
    unfold upsert_service
    dsimp only
    rw [hl, if_pos hcont]
    refine ⟨hOrd, ?_, ?_, ?_⟩
    · rw [keys_setService]
      exact hKeys
    · intro idv hidv
      rw [keys_setService]
      exact h1 _ hidv
    · intro idv hidv
      rw [keys_setService] at hidv
      exact h2 _ hidv

theorem inv_remove (m : ServiceManager) (id : String) (snap1 snap2 : Snapshot)
    (killOk : Nat → Bool) (hkErr : Bool) (p : Bool)
    (h : registryInv m) : registryInv (remove_service m id snap1 snap2 killOk hkErr p).2 := by
  obtain ⟨hOrd, hKeys, h1, h2⟩ := h
  obtain ⟨hkeyseq, hordeq⟩ := stop_keys_order m id snap1 snap2 killOk hkErr
  unfold remove_service
  dsimp only
  rcases hl2 : List.lookup id (stop m id snap1 snap2 killOk hkErr).2.1.services with _ | svc
  · exact ⟨hordeq ▸ hOrd, hkeyseq ▸ hKeys,
      fun idv hidv => hkeyseq ▸ h1 idv (hordeq ▸ hidv),
      fun idv hidv => hordeq ▸ h2 idv (hkeyseq ▸ hidv)⟩
  · refine ⟨?_, ?_, ?_, ?_⟩
    · exact (hordeq ▸ hOrd).filter _
    · rw [keys_filter_ne, hkeyseq]
      exact hKeys.filter _
    · intro idv hidv
      rw [keys_filter_ne, hkeyseq]
      obtain ⟨hmem, hne⟩ := List.mem_filter.mp hidv
      exact List.mem_filter.mpr ⟨h1 _ (hordeq ▸ hmem), hne⟩
    · intro idv hidv
      rw [keys_filter_ne, hkeyseq] at hidv
      obtain ⟨hmem, hne⟩ := List.mem_filter.mp hidv
      rw [hordeq]
      exact List.mem_filter.mpr ⟨h2 _ hmem, hne⟩

theorem load_acc_spec (snap : Snapshot) (cfgs : List ServiceConfig) :
    ∀ (acc : List (String × ManagedService) × List String),
    acc.1.map Prod.fst = acc.2 → acc.2.Nodup →
    ((cfgs.foldl (load_step snap) acc).1.map Prod.fst = (cfgs.foldl (load_step snap) acc).2
      ∧ (cfgs.foldl (load_step snap) acc).2.Nodup) := by
  induction cfgs with
  | nil =>
    intro acc h1 h2
    exact ⟨h1, h2⟩
  | cons cfg rest ih =>
    intro acc h1 h2
    rw [List.foldl_cons]
    have hstep : (load_step snap acc cfg).1.map Prod.fst = (load_step snap acc cfg).2
        ∧ (load_step snap acc cfg).2.Nodup := by
      unfold load_step
      cases hc : acc.2.contains cfg.id
      · rw [if_neg (show ¬ (false = true) by decide)]
        dsimp only
        constructor
        · simp [h1]
        · rw [List.nodup_append]
          refine ⟨h2, List.nodup_singleton _, ?_⟩
          intro a ha hb
          rw [List.mem_singleton] at hb
          subst hb
          exact (contains_false_not_mem hc) ha
      · rw [if_pos (show (true = true) from rfl)]
        exact ⟨h1, h2⟩
    exact ih _ hstep.1 hstep.2

theorem inv_new (file : ServicesFile) (snap : Snapshot) :
    registryInv (ServiceManager.new file snap) := by
  obtain ⟨heq, hnd⟩ := load_acc_spec snap file.services ([], []) rfl List.nodup_nil
  unfold ServiceManager.new
  dsimp only
  exact ⟨hnd, heq ▸ hnd, fun idv hidv => heq ▸ hidv, fun idv hidv => heq ▸ hidv⟩

/-- C4: starting from a freshly loaded registry, after any sequence of
`upsert`, `remove` and `reorder` operations the order list contains
exactly the key set of the service map, with no id appearing twice (and
the map's keys are themselves duplicate-free); each operation preserves
this invariant. -/
theorem C4_registry_invariant (file : ServicesFile) (snap : Snapshot)
    (ops : List RegistryOp) :
    registryInv (applyRegistryOps (ServiceManager.new file snap) ops) := by
  suffices h : ∀ (m : ServiceManager), registryInv m → registryInv (applyRegistryOps m ops)
    from h _ (inv_new file snap)
  induction ops with
  | nil =>
    intro m hm
    exact hm
  | cons op rest ih =>
    intro m hm
    show registryInv (applyRegistryOps (applyRegistryOp m op) rest)
    apply ih
    cases op with
    | upsert cfg p => exact inv_upsert m cfg p hm
    | remove id s1 s2 k hk p => exact inv_remove m id s1 s2 k hk p hm
    | reorder ids p => exact inv_reorder m ids p hm

theorem reorder_pass1_eq_firstDedup (m : ServiceManager) (l : List String) :
    ∀ (acc : List String),
    reorder_pass1 m acc l =
      acc ++ firstDedup (fun idv => (List.lookup idv m.services).isSome)
        (l.filter (fun y => !(acc.contains y))) := by
  induction l with
  | nil =>
    intro acc
    simp [reorder_pass1, firstDedup]
  | cons idv rest ih =>
    intro acc
    unfold reorder_pass1
    cases hk : (List.lookup idv m.services).isSome
    · rw [Bool.false_and, if_neg (show ¬ (false = true) by decide), ih]
      congr 1
      rw [List.filter_cons]
      cases hc : acc.contains idv
      · rw [if_pos (show (!false) = true by decide)]
        simp [firstDedup, hk]
      · rw [if_neg (show ¬ ((!true) = true) by decide)]
    · cases hc : acc.contains idv
      · rw [Bool.true_and, if_pos (show (!false) = true by decide), ih]
        rw [List.filter_cons, hc, if_pos (show (!false) = true by decide)]
        have hfil : rest.filter (fun y => !((acc ++ [idv]).contains y))
            = (rest.filter (fun y => !(acc.contains y))).filter (fun y => !(y == idv)) := by
          rw [List.filter_filter]
          apply List.filter_congr
          intro a _
          rw [contains_append_str, contains_singleton_str]
          cases acc.contains a <;> cases ha : (a == idv) <;> rfl
        rw [hfil]
        have hfd : firstDedup (fun idv2 => (List.lookup idv2 m.services).isSome)
            (idv :: rest.filter (fun y => !(acc.contains y)))
            = idv :: firstDedup (fun idv2 => (List.lookup idv2 m.services).isSome)
                ((rest.filter (fun y => !(acc.contains y))).filter (fun y => !(y == idv))) := by
          simp [firstDedup, hk]
        rw [hfd]
        simp [List.append_assoc]
      · rw [Bool.true_and, if_neg (show ¬ ((!true) = true) by decide), ih]
        congr 1
        rw [List.filter_cons, hc, if_neg (show ¬ ((!true) = true) by decide)]

/-- C5 counterexample: `mgrBA` (obtained from the freshly loaded `mgrAB`
by `reorder(["b"])`) has order list `["b", "a"]` while the map iterates
`a` before `b`; calling `reorder([])` — so both known ids are missing
from the input — appends them in map-iteration order, yielding
`["a", "b"]`, not the prior relative order `["b", "a"]` the claim
demands. -/
theorem C5_counterexample :
    mgrBA.service_order = ["b", "a"]
    ∧ (reorder_services mgrBA [] true).2.service_order = ["a", "b"]
    ∧ ¬ (reorder_services mgrBA [] true).2.service_order = ["b", "a"] := by
  decide

/-- C5 amended: `reorder` projects the requested id sequence onto the
currently known ids — unknown ids dropped and duplicates collapsed
keeping only the first occurrence (`firstDedup` over the known-id
predicate) — and appends every known id missing from the input at the
end in the service map's (unspecified) iteration order, not necessarily
their prior relative order; the resulting order list is a permutation of
exactly the current id set. -/
theorem C5_reorder_projection (m : ServiceManager) (ids : List String) (p : Bool)
    (hKeys : (m.services.map Prod.fst).Nodup) :
    (reorder_services m ids p).2.service_order =
      firstDedup (fun idv => (List.lookup idv m.services).isSome) ids
        ++ (m.services.map Prod.fst).filter
            (fun k =>
              !((firstDedup (fun idv => (List.lookup idv m.services).isSome) ids).contains k))
    ∧ (reorder_services m ids p).2.service_order.Perm (m.services.map Prod.fst) := by
  have hpass1 : reorder_pass1 m [] ids
      = firstDedup (fun idv => (List.lookup idv m.services).isSome) ids := by
    rw [reorder_pass1_eq_firstDedup m ids [], List.nil_append]
    congr 1
    apply List.filter_eq_self.mpr
    intro a _
    rfl
  obtain ⟨horder, -⟩ := reorder_state m ids p
  obtain ⟨hnd, hmem⟩ := reorder_order_spec m ids p hKeys
  constructor
  · rw [horder, hpass1]
  · exact (List.perm_ext_iff_of_nodup hnd hKeys).2 hmem

/-- Witness for the amended C5: reordering `mgrAB` by
`["b", "b", "zz"]` (a duplicate and an unknown id) still produces a
permutation of the current id set. -/
theorem C5_reorder_projection_witness :
    (reorder_services mgrAB ["b", "b", "zz"] true).2.service_order.Perm
      (mgrAB.services.map Prod.fst) :=
  (C5_reorder_projection mgrAB ["b", "b", "zz"] true (by decide)).2

/-! Helper lemmas about `replaceAll` and `build_args`. -/

theorem replaceAll_of_not_hasSub (pat rep : List Char) :
    ∀ (s : List Char), hasSub pat s = false → replaceAll pat rep s = s := by
  intro s
  induction s with
  | nil =>
    intro _
    simp [replaceAll]
  | cons c cs ih =>
    intro h
    unfold hasSub at h
    obtain ⟨h1, h2⟩ := Bool.or_eq_false_iff.mp h
    have hcond : ¬ (pat ≠ [] ∧ pat.isPrefixOf (c :: cs) = true) := by
      rintro ⟨-, hpre⟩
      rw [h1] at hpre
      exact Bool.noConfusion hpre
    show replaceAll pat rep (c :: cs) = c :: cs
    simp only [replaceAll]
    rw [dif_neg hcond, ih h2]

theorem replaceAll_split (pat rep y : List Char) (hne : pat ≠ []) :
    ∀ (x : List Char),
    (∀ i, i < x.length → pat.isPrefixOf (List.drop i (x ++ pat ++ y)) = false) →
    replaceAll pat rep (x ++ pat ++ y) = x ++ rep ++ replaceAll pat rep y := by
  intro x
  induction x with
  | nil =>
    intro _
    simp only [List.nil_append]
    cases pat with
    | nil => exact absurd rfl hne
    | cons p ps =>
      have hpre : (p :: ps).isPrefixOf ((p :: ps) ++ y) = true := by
        rw [List.isPrefixOf_iff_prefix]
        exact List.prefix_append _ _
      rw [List.cons_append]
      show replaceAll (p :: ps) rep (p :: (ps ++ y)) = rep ++ replaceAll (p :: ps) rep y
      simp only [replaceAll]
      rw [dif_pos ⟨List.cons_ne_nil p ps, by rw [← List.cons_append]; exact hpre⟩]
      have hdrop : List.drop (p :: ps).length (p :: (ps ++ y)) = y := by
        rw [← List.cons_append]
        exact List.drop_left _ _
      rw [hdrop]
  | cons a x2 ih =>
    intro hno
    have h0 : pat.isPrefixOf (a :: (x2 ++ pat ++ y)) = false := by
      have hh := hno 0 (by simp)
      rw [List.drop_zero] at hh
      rw [← List.cons_append, ← List.cons_append]
      exact hh
    have hno2 : ∀ i, i < x2.length → pat.isPrefixOf (List.drop i (x2 ++ pat ++ y)) = false := by
      intro i hi
      have hh := hno (i + 1) (by simp only [List.length_cons]; omega)
      rw [List.cons_append, List.cons_append, List.drop_succ_cons] at hh
      exact hh
    rw [List.cons_append, List.cons_append]
    show replaceAll pat rep (a :: (x2 ++ pat ++ y))
      = (a :: (x2 ++ rep)) ++ replaceAll pat rep y
    simp only [replaceAll]
    rw [dif_neg (by rintro ⟨-, hpre⟩; rw [h0] at hpre; exact Bool.noConfusion hpre)]
    rw [ih hno2]
    simp

theorem substArg_verbatim (arg : String) :
    ∀ (kvs : List (String × String)),
    (∀ kv ∈ kvs, hasSubStr (placeholder kv.1) arg = false) →
    substArg (some kvs) arg = arg := by
  intro kvs
  induction kvs with
  | nil =>
    intro _
    rfl
  | cons kv rest ih =>
    intro h
    have hfix : rustReplace arg (placeholder kv.1) kv.2 = arg := by
      unfold rustReplace
      rw [replaceAll_of_not_hasSub _ _ _ (h kv (List.mem_cons_self kv rest))]
    show (kv :: rest).foldl
        (fun s kv2 => rustReplace s (placeholder kv2.1) kv2.2) arg = arg
    rw [List.foldl_cons, hfix]
    exact ih (fun kv2 hm => h kv2 (List.mem_cons_of_mem _ hm))

/-- C8: `build_args` maps each template independently (`none` env is the
identity; the map distributes over append); a template in which no
present key's placeholder occurs is returned verbatim; with a single-key
env every argument undergoes exactly `str::replace` of that key's
placeholder; and `replaceAll` rewrites each leftmost occurrence of the
placeholder to the value, leaving the surrounding text unchanged. -/
theorem C8_build_args_substitution
    (args args2 : List String) (env : Option (List (String × String)))
    (kvs : List (String × String)) (arg : String) (k v : String)
    (pat rep x y : List Char) :
    (build_args args none = args)
    ∧ (build_args (args ++ args2) env = build_args args env ++ build_args args2 env)
    ∧ ((∀ kv ∈ kvs, hasSubStr (placeholder kv.1) arg = false) →
        substArg (some kvs) arg = arg)
    ∧ (build_args args (some [(k, v)])
        = args.map (fun a => rustReplace a (placeholder k) v))
    ∧ (pat ≠ [] →
        (∀ i, i < x.length → pat.isPrefixOf (List.drop i (x ++ pat ++ y)) = false) →
        replaceAll pat rep (x ++ pat ++ y) = x ++ rep ++ replaceAll pat rep y) := by
  refine ⟨?_, ?_, substArg_verbatim arg kvs, rfl,
    fun hne hno => replaceAll_split pat rep y hne x hno⟩
  · show args.map (substArg none) = args
    rw [show substArg none = id from funext (fun a => rfl), List.map_id]
  · simp [build_args]

/-- Witness for C8: a template without the key's placeholder is returned
verbatim, and `replaceAll` rewrites the single `z` occurrence in `az`. -/
theorem C8_build_args_substitution_witness :
    substArg (some [("PORT", "8080")]) "-v" = "-v"
    ∧ replaceAll ['z'] [] (['a'] ++ ['z'] ++ []) = ['a'] ++ [] ++ replaceAll ['z'] [] [] := by
  constructor
  · exact (C8_build_args_substitution [] [] none [("PORT", "8080")] "-v" "k" "v"
      ['z'] [] ['a'] []).2.2.1 (by decide)
  · exact (C8_build_args_substitution [] [] none [("PORT", "8080")] "-v" "k" "v"
      ['z'] [] ['a'] []).2.2.2.2 (by decide)
      (by
        intro i hi
        have hz : i = 0 := by
          simp only [List.length_cons, List.length_nil] at hi
          omega
        subst hz
        decide)

/-- C9: the spawn command `start` builds carries no environment-variable
overrides, so the child inherits the supervisor's environment unchanged;
a service's env map influences only the argument list (every other field
of the built command is independent of it), through `build_args`. -/
theorem C9_env_only_args (cfg : ServiceConfig) (e : Option (List (String × String)))
    (parent : List (String × String)) :
    (build_command cfg).env_overrides = []
    ∧ child_env parent (build_command cfg) = parent
    ∧ (build_command cfg).args = build_args cfg.args cfg.env
    ∧ build_command { cfg with env := e }
        = { build_command cfg with args := build_args cfg.args e } := by
  exact ⟨rfl, rfl, rfl, rfl⟩

theorem set_keep_alive_seq_monitor (reqs : List (Nat × Bool)) :
    ∀ (sys : RunningSystem),
    (apply_set_keep_alive_seq sys reqs).monitor_interval = sys.monitor_interval := by
  induction reqs with
  | nil =>
    intro sys
    rfl
  | cons kb rest ih =>
    intro sys
    show (apply_set_keep_alive_seq (apply_set_keep_alive sys kb.1 kb.2) rest).monitor_interval
      = sys.monitor_interval
    rw [ih]
    rfl

/-- C10: `setKeepAlive` mutates only the keep-alive interval and then
persists — service map, order list, probe snapshot and listen address
are untouched (so every owned handle and last-known PID survives), and
the operation fails exactly when persistence fails; the Health Monitor's
interval is fixed at boot from the initially loaded keep-alive value, so
any later sequence of `setKeepAlive` calls leaves the running monitor's
configuration unchanged. -/
theorem C10_set_keep_alive_frame (m : ServiceManager) (ka : Nat) (p : Bool)
    (reqs : List (Nat × Bool)) :
    (set_global_config m ka p).2.services = m.services
    ∧ (set_global_config m ka p).2.service_order = m.service_order
    ∧ (set_global_config m ka p).2.config_listen = m.config_listen
    ∧ (set_global_config m ka p).2.sys = m.sys
    ∧ (set_global_config m ka p).2.keep_alive_interval = ka
    ∧ ((set_global_config m ka p).1 = Except.ok () ↔ p = true)
    ∧ (apply_set_keep_alive_seq (boot m) reqs).monitor_interval
        = monitor_config m.keep_alive_interval := by
  refine ⟨rfl, rfl, rfl, rfl, rfl, ?_, ?_⟩
  · cases p <;> simp [set_global_config, save_to_disk]
  · rw [set_keep_alive_seq_monitor]
    rfl

end AppManager
